import Mathlib

/-!
Shallow embedding of `src/server/api/routers/friendship-request-router.ts`:
the friendship-request service with its three mutations (send, accept,
decline) over a relational store of directed friendship records.

The store is modelled as a list of rows in insertion order; `executeTakeFirst`
is `List.find?`, an unconditioned `insertInto` appends a fresh row whose `id`
is drawn from a monotone counter, and a predicated `updateTable` maps over the
rows updating every row the `where` clauses match.  A middleware guard that
throws a `TRPCError` before the mutation body runs is modelled by returning
`Except.error` before any mutation of the store, so an error result always
carries an unchanged store.
-/

/-- `status` column: the three-valued `FriendshipStatusSchema` enumeration. -/
inductive Status where
  | requested
  | accepted
  | declined
deriving DecidableEq, Repr

/-- One row of the `friendships` table: a directed friendship record. -/
structure Rec where
  id : Nat
  userId : Nat
  friendUserId : Nat
  status : Status
deriving DecidableEq, Repr

/-- The database visible to the router: the `users` table (User Directory,
read-only here), the `friendships` table in insertion order, and the id
counter used for generated primary keys. -/
structure DB where
  users : List Nat
  recs : List Rec
  nextId : Nat
deriving DecidableEq, Repr

/-- Client errors surfaced by the router (both are `TRPCError BAD_REQUEST`
in the source; the spec names them by the guard that raises them). -/
inductive Err where
  | invalidTarget
  | notRequested
deriving DecidableEq, Repr

/-- `updateTable('friendships').set({status}).where('id','=',i)`:
update by primary key. -/
def updateById (recs : List Rec) (i : Nat) (s : Status) : List Rec :=
  recs.map fun r => if r.id = i then { r with status := s } else r

/-- `updateTable('friendships').set({status: toS}).where(userId).where(friendUserId).where(status,'=',fromS)`:
the status-guarded predicated update used by accept and decline. -/
def updateWhere (recs : List Rec) (u f : Nat) (fromS toS : Status) : List Rec :=
  recs.map fun r =>
    if r.userId = u ∧ r.friendUserId = f ∧ r.status = fromS
    then { r with status := toS } else r

/-- The `send` mutation (`friendshipRequestRouter.send`), for authenticated
session user `s` with input `friendUserId = f`.  The `canSendFriendshipRequest`
guard requires `f` to exist in `users` (else `BAD_REQUEST` = `invalidTarget`).
The body looks up an existing `(s, f)` record with status `declined`; if found
it is transitioned back to `requested`, otherwise a fresh `(s, f, requested)`
row is inserted. -/
def send (db : DB) (s f : Nat) : Except Err DB :=
  if f ∈ db.users then
    match db.recs.find? (fun r =>
        decide (r.userId = s ∧ r.friendUserId = f ∧ r.status = Status.declined)) with
    | some r => .ok { db with recs := updateById db.recs r.id Status.requested }
    | none => .ok { db with
        recs := db.recs ++ [⟨db.nextId, s, f, Status.requested⟩],
        nextId := db.nextId + 1 }
  else .error .invalidTarget

/-- The `canAnswerFriendshipRequest` guard for session user `s` and input
`friendUserId = f`: a row `(userId = f, friendUserId = s, status = requested)`
must exist, else `BAD_REQUEST` = `notRequested`. -/
def hasInboundRequested (db : DB) (s f : Nat) : Prop :=
  ∃ r ∈ db.recs, r.userId = f ∧ r.friendUserId = s ∧ r.status = Status.requested

instance (db : DB) (s f : Nat) : Decidable (hasInboundRequested db s f) := by
  unfold hasInboundRequested; infer_instance

/-- The `accept` mutation (`friendshipRequestRouter.accept`), for session user
`s` with input `friendUserId = f`.  After the `canAnswerFriendshipRequest`
guard, inside one transaction: (1) the inbound `(f, s, requested)` rows are
set to `accepted`; (2) the opposite `(s, f, requested)` row is looked up in
the transaction's view; if absent a fresh `(s, f, accepted)` row is inserted,
otherwise that row is set to `accepted` by id. -/
def accept (db : DB) (s f : Nat) : Except Err DB :=
  if hasInboundRequested db s f then
    let recs1 := updateWhere db.recs f s Status.requested Status.accepted
    match recs1.find? (fun r =>
        decide (r.userId = s ∧ r.friendUserId = f ∧ r.status = Status.requested)) with
    | none => .ok { db with
        recs := recs1 ++ [⟨db.nextId, s, f, Status.accepted⟩],
        nextId := db.nextId + 1 }
    | some r => .ok { db with recs := updateById recs1 r.id Status.accepted }
  else .error .notRequested

/-- The `decline` mutation (`friendshipRequestRouter.decline`), for session
user `s` with input `friendUserId = f`.  After the guard, the inbound
`(f, s, requested)` rows are set to `declined`; no other statement runs. -/
def decline (db : DB) (s f : Nat) : Except Err DB :=
  if hasInboundRequested db s f then
    .ok { db with recs := updateWhere db.recs f s Status.requested Status.declined }
  else .error .notRequested

/-- A call to one of the three endpoints: session user first, input second. -/
inductive Op where
  | send (s f : Nat)
  | accept (s f : Nat)
  | decline (s f : Nat)
deriving DecidableEq, Repr

/-- Run one endpoint call. -/
def exec (db : DB) : Op → Except Err DB
  | .send s f => send db s f
  | .accept s f => accept db s f
  | .decline s f => decline db s f

/-- The store after one endpoint call: a guard error leaves it unchanged. -/
def applyOp (db : DB) (o : Op) : DB :=
  match exec db o with
  | .ok db' => db'
  | .error _ => db

/-- Allowed evolutions of one directed record's `status` column under one
endpoint call: stay put, `requested → accepted` / `requested → declined`
(answering), or the single backward transition `declined → requested`
(re-send). -/
def StatusStep : Status → Status → Prop := fun s s' =>
  s = s' ∨ (s = Status.requested ∧ (s' = Status.accepted ∨ s' = Status.declined)) ∨
    (s = Status.declined ∧ s' = Status.requested)

/-- Well-formed store: primary keys are unique and below the id counter,
as the database engine guarantees for a generated primary-key column. -/
def WF (db : DB) : Prop :=
  (db.recs.map Rec.id).Nodup ∧ ∀ r ∈ db.recs, r.id < db.nextId

lemma mem_eq_of_id_eq {recs : List Rec} (h : (recs.map Rec.id).Nodup)
    {x y : Rec} (hx : x ∈ recs) (hy : y ∈ recs) (hid : x.id = y.id) : x = y :=
  List.inj_on_of_nodup_map h hx hy hid

lemma updateWhere_map_id (recs : List Rec) (u f : Nat) (fromS toS : Status) :
    (updateWhere recs u f fromS toS).map Rec.id = recs.map Rec.id := by
  unfold updateWhere
  rw [List.map_map]
  refine List.map_congr_left fun r _ => ?_
  simp only [Function.comp_apply]
  split <;> rfl

lemma updateById_map_id (recs : List Rec) (i : Nat) (s : Status) :
    (updateById recs i s).map Rec.id = recs.map Rec.id := by
  unfold updateById
  rw [List.map_map]
  refine List.map_congr_left fun r _ => ?_
  simp only [Function.comp_apply]
  split <;> rfl

lemma ids_bound_of_map_eq {recs recs' : List Rec} {n : Nat}
    (hmap : recs'.map Rec.id = recs.map Rec.id)
    (hlt : ∀ r ∈ recs, r.id < n) : ∀ r ∈ recs', r.id < n := by
  intro r hr
  have hmem : r.id ∈ recs'.map Rec.id := List.mem_map_of_mem _ hr
  rw [hmap] at hmem
  obtain ⟨x, hx, hxid⟩ := List.mem_map.mp hmem
  exact hxid ▸ hlt x hx

lemma append_fresh_wf {recs : List Rec} {n : Nat} (hids : (recs.map Rec.id).Nodup)
    (hlt : ∀ r ∈ recs, r.id < n) (u f : Nat) (s : Status) :
    ((recs ++ [Rec.mk n u f s]).map Rec.id).Nodup ∧
      ∀ r ∈ recs ++ [Rec.mk n u f s], r.id < n + 1 := by
  constructor
  · simp only [List.map_append, List.map_cons, List.map_nil]
    rw [List.nodup_append]
    refine ⟨hids, List.nodup_singleton _, ?_⟩
    intro x hx hx2
    simp only [List.mem_singleton] at hx2
    subst hx2
    obtain ⟨r, hr, hrid⟩ := List.mem_map.mp hx
    exact absurd (hrid ▸ hlt r hr) (lt_irrefl _)
  · intro r hr
    rcases List.mem_append.mp hr with h1 | h1
    · exact Nat.lt_succ_of_lt (hlt r h1)
    · simp only [List.mem_singleton] at h1
      subst h1
      exact Nat.lt_succ_self _

/-- Every successful endpoint call preserves store well-formedness and moves
each pre-existing record (tracked by primary key) along an allowed status
transition, keeping its direction. -/
lemma exec_ok_tracks {db : DB} {o : Op} {db' : DB}
    (hids : (db.recs.map Rec.id).Nodup) (hlt : ∀ r ∈ db.recs, r.id < db.nextId)
    (h : exec db o = .ok db') :
    WF db' ∧
    ∀ r ∈ db.recs, ∃ r' ∈ db'.recs, r'.id = r.id ∧ r'.userId = r.userId ∧
      r'.friendUserId = r.friendUserId ∧ StatusStep r.status r'.status := by
  cases o with
  | send s f =>
    by_cases hin : f ∈ db.users
    · cases hfind : db.recs.find? (fun r =>
          decide (r.userId = s ∧ r.friendUserId = f ∧ r.status = Status.declined)) with
      | none =>
        have hdb' : db' = { db with
            recs := db.recs ++ [Rec.mk db.nextId s f Status.requested],
            nextId := db.nextId + 1 } := by
          simp only [exec, send, hin, if_true, hfind, Except.ok.injEq] at h
          exact h.symm
        subst hdb'
        refine ⟨append_fresh_wf hids hlt s f Status.requested, ?_⟩
        intro r hr
        exact ⟨r, List.mem_append_left _ hr, rfl, rfl, rfl, Or.inl rfl⟩
      | some fr =>
        have hfr_mem := List.mem_of_find?_eq_some hfind
        have hfr_pred := List.find?_some hfind
        simp only [decide_eq_true_eq] at hfr_pred
        have hdb' : db' = { db with recs := updateById db.recs fr.id Status.requested } := by
          simp only [exec, send, hin, if_true, hfind, Except.ok.injEq] at h
          exact h.symm
        subst hdb'
        refine ⟨⟨?_, ?_⟩, ?_⟩
        · rw [updateById_map_id]
          exact hids
        · exact ids_bound_of_map_eq (updateById_map_id _ _ _) hlt
        · intro r hr
          refine ⟨if r.id = fr.id then { r with status := Status.requested } else r,
            List.mem_map_of_mem _ hr, ?_, ?_, ?_, ?_⟩
          · split <;> rfl
          · split <;> rfl
          · split <;> rfl
          · by_cases hid : r.id = fr.id
            · have heq : r = fr := mem_eq_of_id_eq hids hr hfr_mem hid
              have hrs : r.status = Status.declined := by
                rw [heq]
                exact hfr_pred.2.2
              simp [hid, hrs, StatusStep]
            · simp [hid, StatusStep]
    · simp only [exec, send, hin, if_false] at h
      cases h
  | decline s f =>
    by_cases hg : hasInboundRequested db s f
    · have hdb' : db' = { db with
          recs := updateWhere db.recs f s Status.requested Status.declined } := by
        simp only [exec, decline, hg, if_true, Except.ok.injEq] at h
        exact h.symm
      subst hdb'
      refine ⟨⟨?_, ?_⟩, ?_⟩
      · rw [updateWhere_map_id]
        exact hids
      · exact ids_bound_of_map_eq (updateWhere_map_id _ _ _ _ _) hlt
      · intro r hr
        refine ⟨if r.userId = f ∧ r.friendUserId = s ∧ r.status = Status.requested
            then { r with status := Status.declined } else r,
          List.mem_map_of_mem _ hr, ?_, ?_, ?_, ?_⟩
        · split <;> rfl
        · split <;> rfl
        · split <;> rfl
        · by_cases hc : r.userId = f ∧ r.friendUserId = s ∧ r.status = Status.requested
          · simp [hc, hc.2.2, StatusStep]
          · simp [hc, StatusStep]
    · simp only [exec, decline, hg, if_false] at h
      cases h
  | accept s f =>
    by_cases hg : hasInboundRequested db s f
    · have hmap1 := updateWhere_map_id db.recs f s Status.requested Status.accepted
      have hnd1 : ((updateWhere db.recs f s Status.requested Status.accepted).map
          Rec.id).Nodup := by
        rw [hmap1]
        exact hids
      have hlt1 : ∀ r ∈ updateWhere db.recs f s Status.requested Status.accepted,
          r.id < db.nextId := ids_bound_of_map_eq hmap1 hlt
      cases hfind : (updateWhere db.recs f s Status.requested Status.accepted).find?
          (fun r => decide (r.userId = s ∧ r.friendUserId = f ∧
            r.status = Status.requested)) with
      | none =>
        have hdb' : db' = { db with
            recs := updateWhere db.recs f s Status.requested Status.accepted ++
              [Rec.mk db.nextId s f Status.accepted],
            nextId := db.nextId + 1 } := by
          simp only [exec, accept, hg, if_true, hfind, Except.ok.injEq] at h
          exact h.symm
        subst hdb'
        refine ⟨append_fresh_wf hnd1 hlt1 s f Status.accepted, ?_⟩
        intro r hr
        refine ⟨if r.userId = f ∧ r.friendUserId = s ∧ r.status = Status.requested
            then { r with status := Status.accepted } else r,
          List.mem_append_left _ (List.mem_map_of_mem _ hr), ?_, ?_, ?_, ?_⟩
        · split <;> rfl
        · split <;> rfl
        · split <;> rfl
        · by_cases hc : r.userId = f ∧ r.friendUserId = s ∧ r.status = Status.requested
          · simp [hc, hc.2.2, StatusStep]
          · simp [hc, StatusStep]
      | some fr =>
        have hfr_mem := List.mem_of_find?_eq_some hfind
        have hfr_pred := List.find?_some hfind
        simp only [decide_eq_true_eq] at hfr_pred
        have hdb' : db' = { db with
            recs := updateById (updateWhere db.recs f s Status.requested Status.accepted)
              fr.id Status.accepted } := by
          simp only [exec, accept, hg, if_true, hfind, Except.ok.injEq] at h
          exact h.symm
        subst hdb'
        refine ⟨⟨?_, ?_⟩, ?_⟩
        · rw [updateById_map_id, hmap1]
          exact hids
        · exact ids_bound_of_map_eq (updateById_map_id _ _ _) hlt1
        · intro r hr
          have hr1 : (if r.userId = f ∧ r.friendUserId = s ∧ r.status = Status.requested
              then { r with status := Status.accepted } else r) ∈
              updateWhere db.recs f s Status.requested Status.accepted :=
            List.mem_map_of_mem _ hr
          by_cases hc : r.userId = f ∧ r.friendUserId = s ∧ r.status = Status.requested
          · rw [if_pos hc] at hr1
            have hne : ({ r with status := Status.accepted } : Rec).id ≠ fr.id := by
              intro hid
              have heq := mem_eq_of_id_eq hnd1 hr1 hfr_mem hid
              have hcontra : Status.accepted = Status.requested :=
                (congrArg Rec.status heq).trans hfr_pred.2.2
              simp at hcontra
            refine ⟨{ r with status := Status.accepted },
              ?_, rfl, rfl, rfl, Or.inr (Or.inl ⟨hc.2.2, Or.inl rfl⟩)⟩
            have : (fun x => if x.id = fr.id then { x with status := Status.accepted }
                else x) ({ r with status := Status.accepted } : Rec) =
                ({ r with status := Status.accepted } : Rec) := by
              simp [hne]
            exact this ▸ List.mem_map_of_mem _ hr1
          · rw [if_neg hc] at hr1
            by_cases hid : r.id = fr.id
            · have heq : r = fr := mem_eq_of_id_eq hnd1 hr1 hfr_mem hid
              have hrs : r.status = Status.requested := by
                rw [heq]
                exact hfr_pred.2.2
              refine ⟨{ r with status := Status.accepted }, ?_,
                rfl, rfl, rfl, Or.inr (Or.inl ⟨hrs, Or.inl rfl⟩)⟩
              have : (fun x => if x.id = fr.id then { x with status := Status.accepted }
                  else x) r = ({ r with status := Status.accepted } : Rec) := by
                simp [hid]
              exact this ▸ List.mem_map_of_mem _ hr1
            · refine ⟨r, ?_, rfl, rfl, rfl, Or.inl rfl⟩
              have : (fun x => if x.id = fr.id then { x with status := Status.accepted }
                  else x) r = r := by
                simp [hid]
              exact this ▸ List.mem_map_of_mem _ hr1
    · simp only [exec, accept, hg, if_false] at h
      cases h


lemma statusStep_accepted {s' : Status} (h : StatusStep Status.accepted s') :
    s' = Status.accepted := by
  rcases h with h | ⟨h, _⟩ | ⟨h, _⟩
  · exact h.symm
  · cases h
  · cases h

lemma rec_eq_of_fields {x y : Rec} (h1 : x.id = y.id) (h2 : x.userId = y.userId)
    (h3 : x.friendUserId = y.friendUserId) (h4 : x.status = y.status) : x = y := by
  cases x
  cases y
  simp_all

/-- C1: for distinct directory users `A` and `B`, Send(A,B) then Decline(B,A)
then Send(A,B) succeeds end to end and leaves exactly one directed record,
`(A, B)` with status `requested`: the second send finds the declined record
and updates it in place instead of inserting a second record. -/
theorem resend_after_decline (users : List Nat) (A B : Nat)
    (hA : A ∈ users) (hB : B ∈ users) (hAB : A ≠ B) :
    (send ⟨users, [], 0⟩ A B).bind (fun d1 =>
      (decline d1 B A).bind (fun d2 => send d2 A B)) =
      .ok ⟨users, [⟨0, A, B, .requested⟩], 1⟩ := by
  simp [send, decline, hasInboundRequested, updateWhere, updateById, hB, Except.bind]

theorem resend_after_decline_witness :
    (send ⟨[0, 1], [], 0⟩ 0 1).bind (fun d1 =>
      (decline d1 1 0).bind (fun d2 => send d2 0 1)) =
      .ok ⟨[0, 1], [⟨0, 0, 1, .requested⟩], 1⟩ :=
  resend_after_decline [0, 1] 0 1 (by decide) (by decide) (by decide)

/-- C2: for distinct directory users `A` and `B`, Send(A,B) then Send(B,A)
then Accept(B,A) leaves exactly two directed records, `(A, B)` and `(B, A)`,
both `accepted`; the accept updates the pre-existing reverse `requested`
record `(B, A)` in place rather than inserting a duplicate. -/
theorem mutual_accept_cross_requests (users : List Nat) (A B : Nat)
    (hA : A ∈ users) (hB : B ∈ users) (hAB : A ≠ B) :
    (send ⟨users, [], 0⟩ A B).bind (fun d1 =>
      (send d1 B A).bind (fun d2 => accept d2 B A)) =
      .ok ⟨users, [⟨0, A, B, .accepted⟩, ⟨1, B, A, .accepted⟩], 2⟩ := by
  simp [send, accept, hasInboundRequested, updateWhere, updateById, hA, hB, hAB,
    Ne.symm hAB, Except.bind]

theorem mutual_accept_cross_requests_witness :
    (send ⟨[0, 1], [], 0⟩ 0 1).bind (fun d1 =>
      (send d1 1 0).bind (fun d2 => accept d2 1 0)) =
      .ok ⟨[0, 1], [⟨0, 0, 1, .accepted⟩, ⟨1, 1, 0, .accepted⟩], 2⟩ :=
  mutual_accept_cross_requests [0, 1] 0 1 (by decide) (by decide) (by decide)

/-- C3: for distinct users `A` and `B`, when the store holds exactly one
record `(A, B, requested)` and no reverse record, Accept(B,A) leaves exactly
two records: `(A, B)` set to `accepted` and a freshly inserted
`(B, A, accepted)`. -/
theorem accept_one_sided_request (users : List Nat) (A B i n : Nat)
    (hAB : A ≠ B) :
    accept ⟨users, [⟨i, A, B, .requested⟩], n⟩ B A =
      .ok ⟨users, [⟨i, A, B, .accepted⟩, ⟨n, B, A, .accepted⟩], n + 1⟩ := by
  simp [accept, hasInboundRequested, updateWhere, updateById, hAB, Ne.symm hAB]

theorem accept_one_sided_request_witness :
    accept ⟨[0, 1], [⟨5, 0, 1, .requested⟩], 7⟩ 1 0 =
      .ok ⟨[0, 1], [⟨5, 0, 1, .accepted⟩, ⟨7, 1, 0, .accepted⟩], 8⟩ :=
  accept_one_sided_request [0, 1] 0 1 5 7 (by decide)

/-- C4: whenever a record `(A, B, requested)` is present, Decline(B,A)
succeeds, creates no record (the store keeps its length, in particular no
`(B, A)` record appears), sets every `(A, B, requested)` record to
`declined`, and leaves every other record exactly unchanged. -/
theorem decline_one_directional (db : DB) (A B : Nat)
    (h : ∃ r ∈ db.recs, r.userId = A ∧ r.friendUserId = B ∧
      r.status = Status.requested) :
    ∃ recs', decline db B A = .ok { db with recs := recs' } ∧
      recs'.length = db.recs.length ∧
      ∀ i, ∀ hi : i < db.recs.length, ∃ hi' : i < recs'.length,
        (((db.recs.get ⟨i, hi⟩).userId = A ∧
            (db.recs.get ⟨i, hi⟩).friendUserId = B ∧
            (db.recs.get ⟨i, hi⟩).status = Status.requested) →
          recs'.get ⟨i, hi'⟩ =
            { db.recs.get ⟨i, hi⟩ with status := Status.declined }) ∧
        (¬((db.recs.get ⟨i, hi⟩).userId = A ∧
            (db.recs.get ⟨i, hi⟩).friendUserId = B ∧
            (db.recs.get ⟨i, hi⟩).status = Status.requested) →
          recs'.get ⟨i, hi'⟩ = db.recs.get ⟨i, hi⟩) := by
  refine ⟨updateWhere db.recs A B Status.requested Status.declined, ?_, ?_, ?_⟩
  · simp [decline, hasInboundRequested]
    exact h
  · simp [updateWhere]
  · intro i hi
    have hi' : i < (updateWhere db.recs A B Status.requested Status.declined).length := by
      simpa [updateWhere] using hi
    refine ⟨hi', ?_, ?_⟩
    · intro hc
      simp only [List.get_eq_getElem] at hc ⊢
      simp [updateWhere, hc.1, hc.2.1, hc.2.2]
    · intro hc
      simp only [List.get_eq_getElem] at hc ⊢
      simp [updateWhere, hc]

theorem decline_one_directional_witness :
    ∃ recs', decline ⟨[0, 1], [⟨0, 0, 1, Status.requested⟩], 1⟩ 1 0 =
        .ok ⟨[0, 1], recs', 1⟩ ∧
      recs'.length = 1 ∧
      ∀ i, ∀ hi : i < 1, ∃ hi' : i < recs'.length,
        ((([(⟨0, 0, 1, Status.requested⟩ : Rec)].get ⟨i, hi⟩).userId = 0 ∧
            ([(⟨0, 0, 1, Status.requested⟩ : Rec)].get ⟨i, hi⟩).friendUserId = 1 ∧
            ([(⟨0, 0, 1, Status.requested⟩ : Rec)].get ⟨i, hi⟩).status =
              Status.requested) →
          recs'.get ⟨i, hi'⟩ =
            { [(⟨0, 0, 1, Status.requested⟩ : Rec)].get ⟨i, hi⟩ with
              status := Status.declined }) ∧
        (¬(([(⟨0, 0, 1, Status.requested⟩ : Rec)].get ⟨i, hi⟩).userId = 0 ∧
            ([(⟨0, 0, 1, Status.requested⟩ : Rec)].get ⟨i, hi⟩).friendUserId = 1 ∧
            ([(⟨0, 0, 1, Status.requested⟩ : Rec)].get ⟨i, hi⟩).status =
              Status.requested) →
          recs'.get ⟨i, hi'⟩ = [(⟨0, 0, 1, Status.requested⟩ : Rec)].get ⟨i, hi⟩) :=
  decline_one_directional ⟨[0, 1], [⟨0, 0, 1, Status.requested⟩], 1⟩ 0 1
    ⟨⟨0, 0, 1, Status.requested⟩, by simp, rfl, rfl, rfl⟩

/-- C5: when no record `(A, B, requested)` exists, both Accept(B,A) and
Decline(B,A) fail with the `notRequested` client error; the guard raises
before the mutation body, so (`applyOp`) the store is unchanged. -/
theorem answer_guard_not_requested (db : DB) (A B : Nat)
    (h : ∀ r ∈ db.recs, ¬(r.userId = A ∧ r.friendUserId = B ∧
      r.status = Status.requested)) :
    accept db B A = .error .notRequested ∧ decline db B A = .error .notRequested ∧
      applyOp db (.accept B A) = db ∧ applyOp db (.decline B A) = db := by
  have hn : ¬ hasInboundRequested db B A := by
    rintro ⟨r, hr, hp⟩
    exact h r hr hp
  simp [accept, decline, applyOp, exec, hn]

theorem answer_guard_not_requested_witness :
    accept ⟨[0, 1], [⟨0, 0, 1, Status.declined⟩], 1⟩ 1 0 = .error .notRequested ∧
      decline ⟨[0, 1], [⟨0, 0, 1, Status.declined⟩], 1⟩ 1 0 = .error .notRequested ∧
      applyOp ⟨[0, 1], [⟨0, 0, 1, Status.declined⟩], 1⟩ (.accept 1 0) =
        ⟨[0, 1], [⟨0, 0, 1, Status.declined⟩], 1⟩ ∧
      applyOp ⟨[0, 1], [⟨0, 0, 1, Status.declined⟩], 1⟩ (.decline 1 0) =
        ⟨[0, 1], [⟨0, 0, 1, Status.declined⟩], 1⟩ :=
  answer_guard_not_requested ⟨[0, 1], [⟨0, 0, 1, Status.declined⟩], 1⟩ 0 1
    (by decide)

/-- C6: sending to an identifier `X` absent from the User Directory fails
with the `invalidTarget` client error and (`applyOp`) leaves the store
unchanged: no friendship record is created or modified. -/
theorem send_invalid_target (db : DB) (A X : Nat) (h : X ∉ db.users) :
    send db A X = .error .invalidTarget ∧ applyOp db (.send A X) = db := by
  simp [send, applyOp, exec, h]

theorem send_invalid_target_witness :
    send ⟨[0], [], 0⟩ 0 5 = .error .invalidTarget ∧
      applyOp ⟨[0], [], 0⟩ (.send 0 5) = ⟨[0], [], 0⟩ :=
  send_invalid_target ⟨[0], [], 0⟩ 0 5 (by decide)

/-- C7 counterexample: with the inbound record `(0, 1)` already `accepted`
(and no `requested` one), Accept(1, 0) does not commit cleanly: the
`canAnswerFriendshipRequest` guard fails with `notRequested` before the
transaction runs, contradicting the claim that the call still commits
without error. -/
theorem accept_on_accepted_only_errors :
    accept ⟨[0, 1], [⟨0, 0, 1, Status.accepted⟩], 1⟩ 1 0 =
      .error .notRequested := by
  simp [accept, hasInboundRequested]

/-- C7 amended: an already-`accepted` inbound record `(A, B)` is never
modified by Accept(B,A): when no `(A, B, requested)` record exists the call
fails with `notRequested` (guard, no store access), and whenever the
transaction does run and commit, the status-guarded updates (which require
`status = requested`) match zero rows for that record, leaving it in the
store unchanged. -/
theorem accept_preserves_accepted_record (db : DB) (A B : Nat) (hwf : WF db)
    (r : Rec) (hr : r ∈ db.recs) (hA : r.userId = A) (hB : r.friendUserId = B)
    (hst : r.status = Status.accepted) :
    (¬ hasInboundRequested db B A → accept db B A = .error .notRequested) ∧
    ∀ db', accept db B A = .ok db' → r ∈ db'.recs := by
  constructor
  · intro hg
    simp [accept, hg]
  · intro db' h
    have hex : exec db (Op.accept B A) = .ok db' := h
    obtain ⟨_, htrack⟩ := exec_ok_tracks hwf.1 hwf.2 hex
    obtain ⟨r', hr', h1, h2, h3, h4⟩ := htrack r hr
    have h4' : r'.status = r.status := by
      rw [hst]
      exact statusStep_accepted (hst ▸ h4)
    exact (rec_eq_of_fields h1 h2 h3 h4') ▸ hr'

theorem accept_preserves_accepted_record_witness :
    (¬ hasInboundRequested ⟨[0, 1], [⟨0, 0, 1, Status.accepted⟩,
        ⟨1, 0, 1, Status.requested⟩], 2⟩ 1 0 →
      accept ⟨[0, 1], [⟨0, 0, 1, Status.accepted⟩,
        ⟨1, 0, 1, Status.requested⟩], 2⟩ 1 0 = .error .notRequested) ∧
    ∀ db', accept ⟨[0, 1], [⟨0, 0, 1, Status.accepted⟩,
        ⟨1, 0, 1, Status.requested⟩], 2⟩ 1 0 = .ok db' →
      (⟨0, 0, 1, Status.accepted⟩ : Rec) ∈ db'.recs :=
  accept_preserves_accepted_record
    ⟨[0, 1], [⟨0, 0, 1, Status.accepted⟩, ⟨1, 0, 1, Status.requested⟩], 2⟩ 0 1
    (by constructor <;> decide) ⟨0, 0, 1, Status.accepted⟩ (by simp) rfl rfl rfl

/-- C8: on a well-formed store, every endpoint call keeps the store
well-formed and moves each pre-existing record along an allowed status
transition only — `requested → accepted`, `requested → declined`, the single
backward transition `declined → requested`, or no change — keeping its
direction; in particular (third conjunct) a record whose status is
`accepted` is never changed by any operation.  Well-formedness preservation
makes this hold along every sequence of send/accept/decline calls. -/
theorem status_transitions_monotone (db : DB) (o : Op) (hwf : WF db) :
    WF (applyOp db o) ∧
    (∀ r ∈ db.recs, ∃ r' ∈ (applyOp db o).recs, r'.id = r.id ∧
      r'.userId = r.userId ∧ r'.friendUserId = r.friendUserId ∧
      StatusStep r.status r'.status) ∧
    ∀ r ∈ db.recs, r.status = Status.accepted → r ∈ (applyOp db o).recs := by
  have core : WF (applyOp db o) ∧
      ∀ r ∈ db.recs, ∃ r' ∈ (applyOp db o).recs, r'.id = r.id ∧
        r'.userId = r.userId ∧ r'.friendUserId = r.friendUserId ∧
        StatusStep r.status r'.status := by
    cases hex : exec db o with
    | ok db' =>
      have := exec_ok_tracks hwf.1 hwf.2 hex
      simpa [applyOp, hex] using this
    | error e =>
      simp only [applyOp, hex]
      exact ⟨hwf, fun r hr => ⟨r, hr, rfl, rfl, rfl, Or.inl rfl⟩⟩
  refine ⟨core.1, core.2, ?_⟩
  intro r hr hst
  obtain ⟨r', hr', h1, h2, h3, h4⟩ := core.2 r hr
  have h4' : r'.status = r.status := by
    rw [hst]
    exact statusStep_accepted (hst ▸ h4)
  exact (rec_eq_of_fields h1 h2 h3 h4') ▸ hr'

theorem status_transitions_monotone_witness :
    WF (applyOp ⟨[0, 1], [⟨0, 0, 1, Status.requested⟩], 1⟩ (.accept 1 0)) ∧
    (∀ r ∈ ([⟨0, 0, 1, Status.requested⟩] : List Rec),
      ∃ r' ∈ (applyOp ⟨[0, 1], [⟨0, 0, 1, Status.requested⟩], 1⟩
          (.accept 1 0)).recs, r'.id = r.id ∧ r'.userId = r.userId ∧
        r'.friendUserId = r.friendUserId ∧ StatusStep r.status r'.status) ∧
    ∀ r ∈ ([⟨0, 0, 1, Status.requested⟩] : List Rec),
      r.status = Status.accepted →
      r ∈ (applyOp ⟨[0, 1], [⟨0, 0, 1, Status.requested⟩], 1⟩
        (.accept 1 0)).recs :=
  status_transitions_monotone ⟨[0, 1], [⟨0, 0, 1, Status.requested⟩], 1⟩
    (.accept 1 0) (by constructor <;> decide)

/-- C9: when a record `(A, B)` with status `requested` or `accepted` exists
(and, per the single-record-per-direction invariant of the data model, no
`(A, B, declined)` record does), Send(A,B) does not take the re-send update
path: its existence check only matches `declined`, so it falls through to an
unconditioned insert, appending a second `(A, B, requested)` record —
afterwards at least two `(A, B)` records are in the store. -/
theorem send_inserts_duplicate_when_not_declined (db : DB) (A B : Nat)
    (hB : B ∈ db.users)
    (hex : ∃ r ∈ db.recs, r.userId = A ∧ r.friendUserId = B ∧
      (r.status = Status.requested ∨ r.status = Status.accepted))
    (hnd : ∀ r ∈ db.recs, r.userId = A → r.friendUserId = B →
      r.status ≠ Status.declined) :
    send db A B = .ok { db with
      recs := db.recs ++ [Rec.mk db.nextId A B Status.requested],
      nextId := db.nextId + 1 } ∧
    2 ≤ ((db.recs ++ [Rec.mk db.nextId A B Status.requested]).filter fun r =>
      decide (r.userId = A ∧ r.friendUserId = B)).length := by
  have hfind : db.recs.find? (fun r =>
      decide (r.userId = A ∧ r.friendUserId = B ∧
        r.status = Status.declined)) = none := by
    rw [List.find?_eq_none]
    intro r hr
    simp only [decide_eq_true_eq]
    rintro ⟨h1, h2, h3⟩
    exact hnd r hr h1 h2 h3
  constructor
  · unfold send
    rw [if_pos hB, hfind]
  · obtain ⟨r, hr, h1, h2, _⟩ := hex
    have hrf : r ∈ db.recs.filter (fun r =>
        decide (r.userId = A ∧ r.friendUserId = B)) :=
      List.mem_filter.mpr ⟨hr, by simp [h1, h2]⟩
    have hlen1 : 0 < (db.recs.filter (fun r =>
        decide (r.userId = A ∧ r.friendUserId = B))).length :=
      List.length_pos_of_mem hrf
    have hnew : (([Rec.mk db.nextId A B Status.requested]).filter (fun r =>
        decide (r.userId = A ∧ r.friendUserId = B))).length = 1 := by
      simp
    rw [List.filter_append, List.length_append, hnew]
    omega

theorem send_inserts_duplicate_when_not_declined_witness :
    send ⟨[0, 1], [⟨0, 0, 1, Status.requested⟩], 1⟩ 0 1 =
      .ok ⟨[0, 1], [⟨0, 0, 1, Status.requested⟩,
        ⟨1, 0, 1, Status.requested⟩], 2⟩ ∧
    2 ≤ (([⟨0, 0, 1, Status.requested⟩,
        ⟨1, 0, 1, Status.requested⟩] : List Rec).filter fun r =>
      decide (r.userId = 0 ∧ r.friendUserId = 1)).length :=
  send_inserts_duplicate_when_not_declined
    ⟨[0, 1], [⟨0, 0, 1, Status.requested⟩], 1⟩ 0 1 (by decide)
    ⟨⟨0, 0, 1, Status.requested⟩, by simp, rfl, rfl, Or.inl rfl⟩ (by decide)

/-- C10: with `(A, B, requested)` and a reverse `(B, A, declined)` record
both present, Accept(B,A) looks up the reverse direction with a predicate
that only matches status `requested`, misses the declined record, and so
inserts a brand-new `(B, A, accepted)` record while leaving the declined
`(B, A)` record untouched — two records for the direction `(B, A)`. -/
theorem accept_with_declined_reverse_duplicates (users : List Nat)
    (A B i j n : Nat) (hAB : A ≠ B) :
    accept ⟨users, [⟨i, A, B, .requested⟩, ⟨j, B, A, .declined⟩], n⟩ B A =
      .ok ⟨users, [⟨i, A, B, .accepted⟩, ⟨j, B, A, .declined⟩,
        ⟨n, B, A, .accepted⟩], n + 1⟩ := by
  simp [accept, hasInboundRequested, updateWhere, updateById, hAB, Ne.symm hAB]

theorem accept_with_declined_reverse_duplicates_witness :
    accept ⟨[0, 1], [⟨3, 0, 1, .requested⟩, ⟨4, 1, 0, .declined⟩], 9⟩ 1 0 =
      .ok ⟨[0, 1], [⟨3, 0, 1, .accepted⟩, ⟨4, 1, 0, .declined⟩,
        ⟨9, 1, 0, .accepted⟩], 10⟩ :=
  accept_with_declined_reverse_duplicates [0, 1] 0 1 3 4 9 (by decide)
